import Mathlib

/-!
Verification of the obview media-review application's access-control,
registration, upsert and notification logic, shallowly embedded from the
Python sources (`app/models/*.py`, `app/api/routes.py`, `app/auth/routes.py`).
Database rows become Lean structures, tables become lists of rows, and each
route handler becomes a pure function from the relevant state and request
data to the new state, a response, and the list of realtime emits.
-/

namespace Obview

/-- A user row (`users` table).  The model file itself is absent from the
sources; the fields are those referenced by `app/auth/routes.py` and the
`to_dict`/relationship uses in the other models.  Timestamps are omitted:
no claim mentions them. -/
structure User where
  id : Nat
  username : String
  email : String
  password_hash : String
  name : String
  role : String
deriving DecidableEq, Repr

/-- A project row (`app/models/project.py`).  Timestamps omitted. -/
structure Project where
  id : Nat
  name : String
  description : String
  created_by_id : Nat
deriving DecidableEq, Repr

/-- A membership row (`ProjectUser` in `app/models/project.py`). -/
structure ProjectUser where
  id : Nat
  project_id : Nat
  user_id : Nat
  role : String
deriving DecidableEq, Repr

/-- `Project.user_has_access` (`app/models/project.py:32-44`): the creator
always has access; otherwise access holds exactly when a `ProjectUser` row
for (project, user) is found — the query filters only on `project_id` and
`user_id`, never on `role`. -/
def user_has_access (memberships : List ProjectUser) (p : Project) (uid : Nat) : Bool :=
  if p.created_by_id == uid then
    true
  else
    (memberships.find? (fun m => m.project_id == p.id && m.user_id == uid)).isSome

/-- C1: `user_has_access` returns true iff the user is the project's creator
or a membership row for the (project, user) pair exists, regardless of that
row's role value (the membership query places no condition on `role`). -/
theorem user_has_access_iff (ms : List ProjectUser) (p : Project) (uid : Nat) :
    user_has_access ms p uid = true ↔
      p.created_by_id = uid ∨ ∃ m ∈ ms, m.project_id = p.id ∧ m.user_id = uid := by
  unfold user_has_access
  by_cases hc : p.created_by_id = uid
  · simp [hc]
  · have hbeq : (p.created_by_id == uid) = false := by
      simp [hc]
    rw [hbeq]
    simp only [if_false, Bool.false_eq_true]
    rw [List.find?_isSome]
    constructor
    · rintro ⟨m, hm, hpred⟩
      right
      rw [Bool.and_eq_true, beq_iff_eq, beq_iff_eq] at hpred
      exact ⟨m, hm, hpred.1, hpred.2⟩
    · rintro (h | ⟨m, hm, h1, h2⟩)
      · exact absurd h hc
      · exact ⟨m, hm, by simp [h1, h2]⟩

/-- A file row (`app/models/file.py`), restricted to the columns the upload
handler sets; `created_at`/`updated_at` are database-side defaults no claim
mentions. -/
structure FileRow where
  id : Nat
  name : String
  description : String
  filename : String
  file_path : String
  file_type : String
  file_size : Nat
  project_id : Nat
  uploaded_by_id : Nat
  version : Nat
  is_latest_version : Bool
deriving DecidableEq, Repr

/-- A comment row (`app/models/comment.py`).  `timestamp` is the media
timestamp in seconds (a float in the source, embedded as `Int`: the handler
only passes it through or defaults it to 0).  `created_at`/`updated_at`
database defaults are omitted: no claim mentions them. -/
structure CommentRow where
  id : Nat
  content : String
  file_id : Nat
  user_id : Nat
  parent_id : Option Nat
  timestamp : Int
  is_resolved : Bool
deriving DecidableEq, Repr

/-- An approval row (`app/models/approval.py`).  `created_at`/`updated_at`
are embedded as abstract clock readings (`Nat`). -/
structure Approval where
  id : Nat
  file_id : Nat
  user_id : Nat
  status : String
  notes : String
  created_at : Nat
  updated_at : Nat
deriving DecidableEq, Repr

/-- Payload of a realtime broadcast, one constructor per event shape
(`routes.py` upload/comment/approval emits).  `fileP` carries the file
record plus the acting user's record; `commentP` and `approvalP` carry the
record's `to_dict`, whose `user` key denormalises the author/reviewer. -/
inductive Payload where
  | fileP (project_id : Nat) (f : FileRow) (u : User)
  | commentP (c : CommentRow) (author : Option User)
  | approvalP (a : Approval) (reviewer : Option User)
deriving DecidableEq, Repr

/-- One `socketio.emit(event, payload, room=...)` call. -/
structure Emit where
  event : String
  room : String
  payload : Payload
deriving DecidableEq, Repr

/-- An HTTP response: either a payload with a success code or an error code
with the handler's message string. -/
inductive Resp (α : Type) where
  | ok (code : Nat) (val : α)
  | err (code : Nat) (msg : String)
deriving DecidableEq, Repr

/-- The status allow-list hard-coded in `create_approval`
(`app/api/routes.py:233`): `data['status'] not in ['approved', 'rejected',
'pending']` fails with 400. -/
def validStatus (s : String) : Bool :=
  s == "approved" || s == "rejected" || s == "pending"

/-- The status values documented by the model's own comment on the column
(`app/models/approval.py:10`: "pending, approved, rejected,
requested_changes"), which is also the enumeration in the spec's data
model. -/
def approvalStatusDoc : List String :=
  ["pending", "approved", "rejected", "requested_changes"]

/-- In-place update of the first approval row matching the (file, user)
pair: the embedding of mutating the object returned by
`Approval.query.filter_by(file_id=..., user_id=...).first()` and
committing, with `updated_at` refreshed by the column's `onupdate` clock. -/
def updateFirstApproval (rows : List Approval) (fid uid : Nat)
    (st notes : String) (now : Nat) : List Approval :=
  match rows with
  | [] => []
  | r :: rs =>
    if r.file_id == fid && r.user_id == uid then
      { r with status := st, notes := notes, updated_at := now } :: rs
    else
      r :: updateFirstApproval rs fid uid st notes now

/-- `create_approval` (`app/api/routes.py:223-266`).  Request body fields
`status`/`notes` arrive as `Option String` (absent key = `none`); `u` is
`current_user`; `now` is the commit-time clock reading; `freshId` is the
primary key the database would assign on insert.  Returns the new approvals
table, the response, and the emitted broadcasts. -/
def create_approval (approvals : List Approval) (fid : Nat) (u : User)
    (statusOpt notesOpt : Option String) (now freshId : Nat) :
    List Approval × Resp Approval × List Emit :=
  match statusOpt with
  | none => (approvals, .err 400 "Status is required", [])
  | some st =>
    if !validStatus st then
      (approvals, .err 400 "Invalid status", [])
    else
      let notes := notesOpt.getD ""
      match approvals.find? (fun a => a.file_id == fid && a.user_id == u.id) with
      | some existing =>
        let approval : Approval :=
          { existing with status := st, notes := notes, updated_at := now }
        (updateFirstApproval approvals fid u.id st notes now,
         .ok 201 approval,
         [⟨"approval_update", "file_" ++ toString fid, .approvalP approval (some u)⟩])
      | none =>
        let approval : Approval := ⟨freshId, fid, u.id, st, notes, now, now⟩
        (approvals ++ [approval],
         .ok 201 approval,
         [⟨"approval_update", "file_" ++ toString fid, .approvalP approval (some u)⟩])

/-- The rows of the approvals table belonging to the (file, user) pair. -/
def approvalRows (approvals : List Approval) (fid uid : Nat) : List Approval :=
  approvals.filter (fun a => a.file_id == fid && a.user_id == uid)

/-- Updating the first (file, user) match rewrites exactly that row when the
pair had at most one row to begin with. -/
theorem approvalRows_updateFirst (rows : List Approval) (fid uid : Nat)
    (st notes : String) (now : Nat) (r : Approval)
    (hfind : rows.find? (fun a => a.file_id == fid && a.user_id == uid) = some r)
    (hcnt : (approvalRows rows fid uid).length ≤ 1) :
    approvalRows (updateFirstApproval rows fid uid st notes now) fid uid =
      [{ r with status := st, notes := notes, updated_at := now }] := by
  induction rows with
  | nil => simp [List.find?] at hfind
  | cons hd tl ih =>
    by_cases hmatch : (hd.file_id == fid && hd.user_id == uid) = true
    · have hfind' : some hd = some r := by
        rw [← hfind]
        simp [List.find?, hmatch]
      injection hfind' with hr
      subst hr
      have htl : List.filter (fun a => a.file_id == fid && a.user_id == uid) tl = [] := by
        have hlen := hcnt
        unfold approvalRows at hlen
        rw [List.filter_cons, if_pos hmatch, List.length_cons] at hlen
        exact List.eq_nil_of_length_eq_zero
          (Nat.le_zero.mp (Nat.le_of_succ_le_succ hlen))
      unfold updateFirstApproval approvalRows
      rw [if_pos hmatch, List.filter_cons]
      simp only [hmatch, htl, if_true]
    · have hm' : (hd.file_id == fid && hd.user_id == uid) = false := by
        simpa using hmatch
      have hfind2 : tl.find? (fun a => a.file_id == fid && a.user_id == uid) = some r := by
        rw [← hfind]
        simp [List.find?, hm']
      have hcnt' : (approvalRows tl fid uid).length ≤ 1 := by
        unfold approvalRows at hcnt ⊢
        rwa [List.filter_cons, if_neg (by simp [hm'])] at hcnt
      have hrec := ih hfind2 hcnt'
      unfold updateFirstApproval approvalRows
      rw [if_neg hmatch, List.filter_cons, if_neg (by simp [hm'])]
      unfold approvalRows at hrec
      exact hrec

/-- C2: a successful approval submission leaves exactly one Approval row for
the (file, user) pair — updated in place if one existed, freshly inserted
otherwise — whose status and notes are those of the latest submission and
whose `updated_at` equals the commit clock `now`, strictly later than every
prior `updated_at` of the pair when the clock has advanced.  Sequencing the
theorem (its invariant hypothesis is re-established by its conclusion)
covers any sequence of submissions by the user for the file. -/
theorem approval_upsert (approvals : List Approval) (fid : Nat) (u : User)
    (st : String) (notesOpt : Option String) (now freshId : Nat)
    (tbl : List Approval) (emits : List Emit) (a : Approval)
    (hcnt : (approvalRows approvals fid u.id).length ≤ 1)
    (hclock : ∀ b ∈ approvalRows approvals fid u.id, b.updated_at < now)
    (hok : create_approval approvals fid u (some st) notesOpt now freshId =
      (tbl, Resp.ok 201 a, emits)) :
    approvalRows tbl fid u.id = [a] ∧
    a.file_id = fid ∧ a.user_id = u.id ∧
    a.status = st ∧ a.notes = notesOpt.getD "" ∧ a.updated_at = now ∧
    ∀ b ∈ approvalRows approvals fid u.id, b.updated_at < a.updated_at := by
  unfold create_approval at hok
  by_cases hv : validStatus st = true
  · simp only [hv, Bool.not_true, Bool.false_eq_true, if_false] at hok
    cases hfind : approvals.find? (fun b => b.file_id == fid && b.user_id == u.id) with
    | some existing =>
      rw [hfind] at hok
      simp only [Prod.mk.injEq] at hok
      obtain ⟨htbl, hresp, _⟩ := hok
      have hpair := List.find?_some hfind
      rw [Bool.and_eq_true, beq_iff_eq, beq_iff_eq] at hpair
      injection hresp with hcode hval
      subst hval htbl
      refine ⟨?_, by simp [hpair.1], by simp [hpair.2], rfl, rfl, rfl, ?_⟩
      · exact approvalRows_updateFirst approvals fid u.id st (notesOpt.getD "")
          now existing hfind hcnt
      · intro b hb
        exact hclock b hb
    | none =>
      rw [hfind] at hok
      simp only [Prod.mk.injEq] at hok
      obtain ⟨htbl, hresp, _⟩ := hok
      injection hresp with hcode hval
      have hempty : approvalRows approvals fid u.id = [] := by
        apply List.filter_eq_nil_iff.mpr
        intro b hb
        have := List.find?_eq_none.mp hfind b hb
        simpa using this
      subst hval htbl
      refine ⟨?_, rfl, rfl, rfl, rfl, rfl, ?_⟩
      · unfold approvalRows at hempty ⊢
        rw [List.filter_append, hempty]
        simp
      · intro b hb
        exact hclock b hb
  · have hv' : validStatus st = false := by
      simpa using hv
    simp [hv'] at hok

/-- A sample reviewer used to instantiate the handler theorems. -/
def demoUser2 : User := ⟨2, "bob", "bob@example.com", "h2", "Bob", "standard"⟩

/-- A one-row approvals table: user 2 already has a pending approval on
file 5. -/
def demoApprovals : List Approval := [⟨1, 5, 2, "pending", "", 0, 0⟩]

/-- The row after user 2 resubmits status "approved" with notes "lgtm" at
clock 10. -/
def demoApprovalAfter : Approval := ⟨1, 5, 2, "approved", "lgtm", 0, 10⟩

/-- Witness for C2: resubmitting over an existing pending approval yields
exactly the updated row with the latest status, notes and clock. -/
theorem approval_upsert_witness :
    approvalRows [demoApprovalAfter] 5 2 = [demoApprovalAfter] ∧
    demoApprovalAfter.status = "approved" ∧
    demoApprovalAfter.notes = "lgtm" ∧
    demoApprovalAfter.updated_at = 10 := by
  have h := approval_upsert demoApprovals 5 demoUser2 "approved" (some "lgtm") 10 9
    [demoApprovalAfter]
    [⟨"approval_update", "file_" ++ toString 5, .approvalP demoApprovalAfter (some demoUser2)⟩]
    demoApprovalAfter (by decide) (by decide) (by decide)
  exact ⟨h.1, h.2.2.2.1, h.2.2.2.2.1, h.2.2.2.2.2.1⟩

/-- C3 (code bug): the status value "requested_changes" is one of the values
documented on the model's own status column and in the spec's enumeration,
yet the handler's allow-list omits it, so submitting it fails with 400 and
leaves the approvals table unchanged with nothing emitted; the three
remaining documented values do pass validation. -/
theorem requested_changes_status_rejected :
    "requested_changes" ∈ approvalStatusDoc ∧
    validStatus "requested_changes" = false ∧
    validStatus "pending" = true ∧
    validStatus "approved" = true ∧
    validStatus "rejected" = true ∧
    create_approval [] 1 demoUser2 (some "requested_changes") none 5 1 =
      ([], Resp.err 400 "Invalid status", []) := by
  refine ⟨by decide, by decide, by decide, by decide, by decide, by decide⟩

/-- `create_comment` (`app/api/routes.py:187-216`).  The only validation is
`'content' not in data`: a present key — even with an empty-string value —
passes.  The handler never sets `parent_id` and leaves `is_resolved` at its
column default `False`. -/
def create_comment (comments : List CommentRow) (fid : Nat) (u : User)
    (contentOpt : Option String) (tsOpt : Option Int) (freshId : Nat) :
    List CommentRow × Resp CommentRow × List Emit :=
  match contentOpt with
  | none => (comments, .err 400 "Content is required", [])
  | some c =>
    let comment : CommentRow := ⟨freshId, c, fid, u.id, none, tsOpt.getD 0, false⟩
    (comments ++ [comment], .ok 201 comment,
     [⟨"new_comment", "file_" ++ toString fid, .commentP comment (some u)⟩])

/-- Counterexample to C4: a comment-creation request whose content key is
present but holds the empty string is accepted — a Comment row with empty
content is inserted and 201 returned, where the claim demands a 400 with no
row created. -/
theorem empty_content_comment_created :
    (create_comment [] 7 demoUser2 (some "") none 3).1 =
      [⟨3, "", 7, 2, none, 0, false⟩] ∧
    (create_comment [] 7 demoUser2 (some "") none 3).2.1 =
      Resp.ok 201 ⟨3, "", 7, 2, none, 0, false⟩ := by
  refine ⟨by decide, by decide⟩

/-- C4 as amended: comment creation fails with 400 — leaving the comments
table unchanged and emitting nothing — exactly when the content key is
absent from the request body; any present content value, the empty string
included, is accepted and appended as a new row. -/
theorem comment_content_presence_check (comments : List CommentRow) (fid : Nat)
    (u : User) (tsOpt : Option Int) (freshId : Nat) :
    create_comment comments fid u none tsOpt freshId =
      (comments, Resp.err 400 "Content is required", []) ∧
    ∀ c, (create_comment comments fid u (some c) tsOpt freshId).1 =
      comments ++ [⟨freshId, c, fid, u.id, none, tsOpt.getD 0, false⟩] :=
  ⟨rfl, fun _ => rfl⟩

/-- The upload allow-list hard-coded in `allowed_file`
(`app/api/routes.py:50-55`). -/
def ALLOWED_EXTENSIONS : List String :=
  ["mp4", "mov", "avi", "wmv", "flv", "webm", "mkv",
   "jpg", "jpeg", "png", "gif", "pdf", "doc", "docx",
   "xls", "xlsx", "ppt", "pptx"]

/-- Character membership in a character list: Python's `'.' in filename`. -/
def charIn (c : Char) (l : List Char) : Bool :=
  match l with
  | [] => false
  | x :: xs => x == c || charIn c xs

/-- The prefix of `l` strictly before the first occurrence of `c`. -/
def takeUntilChar (l : List Char) (c : Char) : List Char :=
  match l with
  | [] => []
  | x :: xs => if x == c then [] else x :: takeUntilChar xs c

/-- The substring after the last dot — Python's `filename.rsplit('.', 1)[1]`
(only evaluated when a dot is present): the reversed run of characters up to
the first dot of the reversed filename. -/
def extensionOf (filename : String) : String :=
  String.mk ((takeUntilChar filename.toList.reverse '.').reverse)

/-- Python's `str.lower`, applied characterwise. -/
def lowerStr (s : String) : String :=
  String.mk (s.toList.map Char.toLower)

/-- `allowed_file` (`app/api/routes.py:50-55`): a dot must occur and the
lower-cased final extension must be on the allow-list. -/
def allowed_file (filename : String) : Bool :=
  charIn '.' filename.toList &&
    ALLOWED_EXTENSIONS.contains (lowerStr (extensionOf filename))

/-- The parts of `request.files['file']` the upload handler reads. -/
structure UploadForm where
  filename : String
  content_type : String
  size : Nat
deriving DecidableEq, Repr

/-- `upload_file` (`app/api/routes.py:121-166`).  `fileOpt` is `none` when
the multipart body has no `file` part; `secure` stands for werkzeug's
`secure_filename`; `token` is the generated `uuid4` prefix; `folder` is
`UPLOAD_FOLDER`; `freshId` the database-assigned primary key.  On success a
File row (version 1, latest) is appended and one `file_upload` broadcast is
emitted to the project's room. -/
def upload_file (files : List FileRow) (pid : Nat) (u : User)
    (fileOpt : Option UploadForm) (nameOpt descOpt : Option String)
    (secure : String → String) (token folder : String) (freshId : Nat) :
    List FileRow × Resp FileRow × List Emit :=
  match fileOpt with
  | none => (files, .err 400 "No file part", [])
  | some f =>
    if f.filename == "" then
      (files, .err 400 "No file selected", [])
    else if !allowed_file f.filename then
      (files, .err 400 "File type not allowed", [])
    else
      let filename := secure f.filename
      let unique := token ++ "_" ++ filename
      let path := folder ++ "/" ++ unique
      let newFile : FileRow :=
        ⟨freshId, nameOpt.getD filename, descOpt.getD "", filename, path,
         f.content_type, f.size, pid, u.id, 1, true⟩
      (files ++ [newFile], .ok 201 newFile,
       [⟨"file_upload", "project_" ++ toString pid, .fileP pid newFile u⟩])

/-- C5: an upload whose filename fails the extension allow-list is rejected
with a 400 validation error, the files table is returned unchanged — no
File row is created — and nothing is broadcast. -/
theorem disallowed_extension_rejected (files : List FileRow) (pid : Nat)
    (u : User) (f : UploadForm) (nameOpt descOpt : Option String)
    (secure : String → String) (token folder : String) (freshId : Nat)
    (hbad : allowed_file f.filename = false) :
    ∃ msg, upload_file files pid u (some f) nameOpt descOpt secure token folder freshId =
      (files, Resp.err 400 msg, []) := by
  unfold upload_file
  by_cases hempty : (f.filename == "") = true
  · refine ⟨"No file selected", ?_⟩
    simp only [hempty, if_true]
  · refine ⟨"File type not allowed", ?_⟩
    have hempty' : (f.filename == "") = false := by
      simpa using hempty
    simp only [hempty', Bool.false_eq_true, if_false, hbad, Bool.not_false, if_true]

/-- Witness for C5: the upload of "report.exe" — extension "exe" is not on
the allow-list — is rejected with no state change and no broadcast. -/
theorem disallowed_extension_rejected_witness :
    allowed_file "report.exe" = false ∧
    ∃ msg, upload_file [] 3 demoUser2 (some ⟨"report.exe", "application/x-msdownload", 10⟩)
      none none (fun s => s) "tok" "uploads" 1 = ([], Resp.err 400 msg, []) :=
  ⟨by decide,
   disallowed_extension_rejected [] 3 demoUser2 ⟨"report.exe", "application/x-msdownload", 10⟩
     none none (fun s => s) "tok" "uploads" 1 (by decide)⟩

/-- Modelled from the spec: the User model file (`app/models/user.py`) is
not among the sources, only its callers are.  Per the spec's data model the
role column is admin|standard and only the first-ever account is promoted,
so the column default embedded here is "standard". -/
def defaultRole : String := "standard"

/-- The JSON body of a registration request; an absent key is `none`. -/
structure RegisterReq where
  usernameOpt : Option String
  emailOpt : Option String
  passwordOpt : Option String
  nameOpt : Option String
deriving DecidableEq, Repr

/-- `register` (`app/auth/routes.py:7-39`).  `authenticated` is
`current_user.is_authenticated`; `hash` stands for the one-way password
hash of the absent User model's `set_password` (modelled from the spec:
only a salted hash is persisted); `freshId` is the database-assigned key.
Checks in source order: an authenticated caller, then missing fields, then
a username match, then an email match, each ending the request with 400;
otherwise the row is inserted, promoted to admin when the user count before
the insert is zero. -/
def register (users : List User) (authenticated : Bool) (req : RegisterReq)
    (freshId : Nat) (hash : String → String) : List User × Resp User :=
  if authenticated then
    (users, .err 400 "Already authenticated")
  else
    match req.usernameOpt, req.emailOpt, req.passwordOpt with
    | some un, some em, some pw =>
      if (users.find? (fun v => v.username == un)).isSome then
        (users, .err 400 "Username already exists")
      else if (users.find? (fun v => v.email == em)).isSome then
        (users, .err 400 "Email already in use")
      else
        let role := if users.length == 0 then "admin" else defaultRole
        let user : User := ⟨freshId, un, em, hash pw, req.nameOpt.getD un, role⟩
        (users ++ [user], .ok 201 user)
    | _, _, _ => (users, .err 400 "Missing required fields")

/-- C6: a successful registration grants role "admin" exactly when the user
store was empty beforehand and "standard" otherwise, and appends the new
row to the store — so along any sequence of successful registrations from
an empty store the first user is the admin and every later one is
standard. -/
theorem first_user_admin (users : List User) (req : RegisterReq)
    (freshId : Nat) (hash : String → String) (users' : List User) (u : User)
    (hok : register users false req freshId hash = (users', Resp.ok 201 u)) :
    u.role = (if users.isEmpty then "admin" else "standard") ∧
    users' = users ++ [u] := by
  unfold register at hok
  simp only [Bool.false_eq_true, if_false] at hok
  cases hu : req.usernameOpt with
  | none =>
    rw [hu] at hok
    simp at hok
  | some un =>
    cases he : req.emailOpt with
    | none =>
      rw [hu, he] at hok
      simp at hok
    | some em =>
      cases hp : req.passwordOpt with
      | none =>
        rw [hu, he, hp] at hok
        simp at hok
      | some pw =>
        rw [hu, he, hp] at hok
        by_cases hfu : (users.find? (fun v => v.username == un)).isSome = true
        · simp [hfu] at hok
        · have hfu' : (users.find? (fun v => v.username == un)).isSome = false := by
            simpa using hfu
          by_cases hfe : (users.find? (fun v => v.email == em)).isSome = true
          · simp [hfu', hfe] at hok
          · have hfe' : (users.find? (fun v => v.email == em)).isSome = false := by
              simpa using hfe
            simp only [hfu', hfe', Bool.false_eq_true, if_false] at hok
            simp only [Prod.mk.injEq] at hok
            obtain ⟨husers, hresp⟩ := hok
            injection hresp with hcode hval
            subst hval husers
            refine ⟨?_, rfl⟩
            cases users with
            | nil => simp [defaultRole]
            | cons v vs => simp [defaultRole]

/-- Witness for C6: registering into an empty store yields role "admin";
registering the next user into the resulting one-user store yields role
"standard". -/
theorem first_user_admin_witness :
    (⟨1, "admin", "admin@example.com", "pw1", "admin", "admin"⟩ : User).role = "admin" ∧
    (⟨2, "bob", "bob@example.com", "pw2", "bob", "standard"⟩ : User).role = "standard" := by
  have h1 := first_user_admin [] ⟨some "admin", some "admin@example.com", some "pw1", none⟩
    1 (fun s => s) [⟨1, "admin", "admin@example.com", "pw1", "admin", "admin"⟩]
    ⟨1, "admin", "admin@example.com", "pw1", "admin", "admin"⟩ (by decide)
  have h2 := first_user_admin [⟨1, "admin", "admin@example.com", "pw1", "admin", "admin"⟩]
    ⟨some "bob", some "bob@example.com", some "pw2", none⟩ 2 (fun s => s)
    [⟨1, "admin", "admin@example.com", "pw1", "admin", "admin"⟩,
     ⟨2, "bob", "bob@example.com", "pw2", "bob", "standard"⟩]
    ⟨2, "bob", "bob@example.com", "pw2", "bob", "standard"⟩ (by decide)
  exact ⟨h1.1, h2.1⟩

/-- Usernames are pairwise distinct across the user store. -/
def distinctUsernames (users : List User) : Prop :=
  users.Pairwise (fun v w => v.username ≠ w.username)

/-- Emails are pairwise distinct across the user store. -/
def distinctEmails (users : List User) : Prop :=
  users.Pairwise (fun v w => v.email ≠ w.email)

/-- C7: a well-formed registration whose username or email is already taken
fails with a 400 conflict and leaves the user store unchanged; moreover any
registration outcome preserves pairwise-distinct usernames and emails, so
at most one User row per username (and per email) ever exists. -/
theorem duplicate_registration_conflict (users : List User) (req : RegisterReq)
    (freshId : Nat) (hash : String → String) (un em pw : String)
    (hun : req.usernameOpt = some un) (hem : req.emailOpt = some em)
    (hpw : req.passwordOpt = some pw) :
    ((∃ v ∈ users, v.username = un) ∨ (∃ v ∈ users, v.email = em) →
      ∃ msg, register users false req freshId hash = (users, Resp.err 400 msg)) ∧
    (distinctUsernames users →
      distinctUsernames (register users false req freshId hash).1) ∧
    (distinctEmails users →
      distinctEmails (register users false req freshId hash).1) := by
  by_cases hfu : (users.find? (fun v => v.username == un)).isSome = true
  · have hreg : register users false req freshId hash =
        (users, Resp.err 400 "Username already exists") := by
      unfold register
      simp [hun, hem, hpw, hfu]
    refine ⟨fun _ => ⟨"Username already exists", hreg⟩, ?_, ?_⟩
    · intro hd
      rw [hreg]
      exact hd
    · intro hd
      rw [hreg]
      exact hd
  · have hfu' : (users.find? (fun v => v.username == un)).isSome = false := by
      simpa using hfu
    have hnoneU : users.find? (fun v => v.username == un) = none := by
      cases hcase : users.find? (fun v => v.username == un) with
      | none => rfl
      | some x => rw [hcase] at hfu'; simp at hfu'
    by_cases hfe : (users.find? (fun v => v.email == em)).isSome = true
    · have hreg : register users false req freshId hash =
          (users, Resp.err 400 "Email already in use") := by
        unfold register
        simp [hun, hem, hpw, hfu', hfe]
      refine ⟨fun _ => ⟨"Email already in use", hreg⟩, ?_, ?_⟩
      · intro hd
        rw [hreg]
        exact hd
      · intro hd
        rw [hreg]
        exact hd
    · have hfe' : (users.find? (fun v => v.email == em)).isSome = false := by
        simpa using hfe
      have hnoneE : users.find? (fun v => v.email == em) = none := by
        cases hcase : users.find? (fun v => v.email == em) with
        | none => rfl
        | some x => rw [hcase] at hfe'; simp at hfe'
      have hreg : register users false req freshId hash =
          (users ++ [⟨freshId, un, em, hash pw, req.nameOpt.getD un,
            if users.length == 0 then "admin" else defaultRole⟩],
           Resp.ok 201 ⟨freshId, un, em, hash pw, req.nameOpt.getD un,
            if users.length == 0 then "admin" else defaultRole⟩) := by
        unfold register
        simp [hun, hem, hpw, hfu', hfe']
      refine ⟨?_, ?_, ?_⟩
      · rintro (⟨v, hv, hvu⟩ | ⟨v, hv, hve⟩)
        · exact absurd (List.find?_isSome.mpr ⟨v, hv, by simp [hvu]⟩) hfu
        · exfalso
          have : (users.find? (fun v => v.email == em)).isSome = true :=
            List.find?_isSome.mpr ⟨v, hv, by simp [hve]⟩
          rw [this] at hfe'
          exact absurd hfe' (by simp)
      · intro hd
        rw [hreg]
        unfold distinctUsernames at hd ⊢
        rw [List.pairwise_append]
        refine ⟨hd, List.pairwise_singleton _ _, ?_⟩
        intro v hv w hw
        simp only [List.mem_singleton] at hw
        subst hw
        have := List.find?_eq_none.mp hnoneU v hv
        simpa using this
      · intro hd
        rw [hreg]
        unfold distinctEmails at hd ⊢
        rw [List.pairwise_append]
        refine ⟨hd, List.pairwise_singleton _ _, ?_⟩
        intro v hv w hw
        simp only [List.mem_singleton] at hw
        subst hw
        have := List.find?_eq_none.mp hnoneE v hv
        simpa using this

/-- Witness for C7: with "alice" already registered, a second registration
using the username "alice" fails with a 400 conflict and the store still
holds exactly the original row. -/
theorem duplicate_registration_conflict_witness :
    ∃ msg, register [⟨1, "alice", "alice@example.com", "h", "Alice", "admin"⟩] false
      ⟨some "alice", some "new@example.com", some "pw", none⟩ 2 (fun s => s) =
      ([⟨1, "alice", "alice@example.com", "h", "Alice", "admin"⟩], Resp.err 400 msg) :=
  (duplicate_registration_conflict
    [⟨1, "alice", "alice@example.com", "h", "Alice", "admin"⟩]
    ⟨some "alice", some "new@example.com", some "pw", none⟩ 2 (fun s => s)
    "alice" "new@example.com" "pw" rfl rfl rfl).1
    (Or.inl ⟨⟨1, "alice", "alice@example.com", "h", "Alice", "admin"⟩, by simp, rfl⟩)

/-- Outcome of a guard decorator: either an early error response or the
resolved resource handed to the wrapped view. -/
inductive Guard (α : Type) where
  | halt (code : Nat) (msg : String)
  | pass (val : α)
deriving DecidableEq, Repr

/-- `check_project_access` (`app/api/routes.py:16-30`).  Python's
`if not project_id` treats the id 0 as falsy, so a zero id ends with 400
before any lookup; `get_or_404` aborts with the framework's 404 when the id
resolves to no row; otherwise `user_has_access` decides between 403 and
passing the project through. -/
def check_project_access (projects : List Project) (memberships : List ProjectUser)
    (pid uid : Nat) : Guard Project :=
  if pid == 0 then
    .halt 400 "Project ID required"
  else
    match projects.find? (fun p => p.id == pid) with
    | none => .halt 404 "Not Found"
    | some p =>
      if !user_has_access memberships p uid then
        .halt 403 "You do not have access to this project"
      else
        .pass p

/-- `check_file_access` (`app/api/routes.py:32-48`).  Same falsy-id and
`get_or_404` behaviour; the owning project is then fetched with a plain
`get`, whose `None` result would crash the attribute access (a 500 here);
otherwise `user_has_access` on the owning project decides 403 versus
passing the file through. -/
def check_file_access (files : List FileRow) (projects : List Project)
    (memberships : List ProjectUser) (fid uid : Nat) : Guard FileRow :=
  if fid == 0 then
    .halt 400 "File ID required"
  else
    match files.find? (fun f => f.id == fid) with
    | none => .halt 404 "Not Found"
    | some f =>
      match projects.find? (fun p => p.id == f.project_id) with
      | none => .halt 500 "AttributeError"
      | some p =>
        if !user_has_access memberships p uid then
          .halt 403 "You do not have access to this file"
        else
          .pass f

/-- Counterexample to C8: with file id 0 — an id no file row ever carries —
the file guard answers 400 "File ID required" instead of the claimed 404,
because Python's `if not file_id` treats 0 as falsy before the lookup; the
project guard behaves the same way. -/
theorem guard_zero_id_not_404 :
    check_file_access [] [] [] 0 7 = Guard.halt 400 "File ID required" ∧
    check_file_access [] [] [] 0 7 ≠ Guard.halt 404 "Not Found" ∧
    check_project_access [] [] 0 7 = Guard.halt 400 "Project ID required" ∧
    check_project_access [] [] 0 7 ≠ Guard.halt 404 "Not Found" := by
  refine ⟨by decide, by decide, by decide, by decide⟩

/-- C8 as amended: for any nonzero id, a file-scoped guard answers 404 when
no file with that id exists, 403 when the file exists (its owning project
resolved) but `user_has_access` fails for that project, and passes the file
through otherwise; the project-scoped guard applies the same
NotFound-then-Forbidden check keyed on a nonzero project id.  An id of 0 is
the one exception, answered 400 before the lookup. -/
theorem access_guard_behavior (files : List FileRow) (projects : List Project)
    (ms : List ProjectUser) (fid pid uid : Nat)
    (hf : fid ≠ 0) (hp : pid ≠ 0) :
    (files.find? (fun f => f.id == fid) = none →
      check_file_access files projects ms fid uid = Guard.halt 404 "Not Found") ∧
    (∀ f p, files.find? (fun f => f.id == fid) = some f →
      projects.find? (fun q => q.id == f.project_id) = some p →
      check_file_access files projects ms fid uid =
        (if user_has_access ms p uid then Guard.pass f
         else Guard.halt 403 "You do not have access to this file")) ∧
    (projects.find? (fun p => p.id == pid) = none →
      check_project_access projects ms pid uid = Guard.halt 404 "Not Found") ∧
    (∀ p, projects.find? (fun q => q.id == pid) = some p →
      check_project_access projects ms pid uid =
        (if user_has_access ms p uid then Guard.pass p
         else Guard.halt 403 "You do not have access to this project")) := by
  have hf' : (fid == 0) = false := by
    simpa using hf
  have hp' : (pid == 0) = false := by
    simpa using hp
  refine ⟨?_, ?_, ?_, ?_⟩
  · intro hnone
    unfold check_file_access
    rw [hf', hnone]
    simp
  · intro f p hfind hproj
    unfold check_file_access
    rw [hf', hfind]
    simp only [Bool.false_eq_true, if_false]
    rw [hproj]
    by_cases hacc : user_has_access ms p uid = true
    · simp [hacc]
    · have hacc' : user_has_access ms p uid = false := by
        simpa using hacc
      simp [hacc']
  · intro hnone
    unfold check_project_access
    rw [hp', hnone]
    simp
  · intro p hfind
    unfold check_project_access
    rw [hp', hfind]
    simp only [Bool.false_eq_true, if_false]
    by_cases hacc : user_has_access ms p uid = true
    · simp [hacc]
    · have hacc' : user_has_access ms p uid = false := by
        simpa using hacc
      simp [hacc']

/-- Witness for C8's amended statement: a nonzero unknown file id gives 404;
a file owned by a project the caller created passes the guard; a project
unknown to the caller's memberships gives 403 on the project guard. -/
theorem access_guard_behavior_witness :
    check_file_access [] [] [] 1 7 = Guard.halt 404 "Not Found" ∧
    check_file_access [⟨4, "n", "", "f.mp4", "p", "t", 1, 9, 7, 1, true⟩]
      [⟨9, "proj", "", 7⟩] [] 4 7 =
      Guard.pass ⟨4, "n", "", "f.mp4", "p", "t", 1, 9, 7, 1, true⟩ ∧
    check_project_access [⟨9, "proj", "", 3⟩] [] 9 7 =
      Guard.halt 403 "You do not have access to this project" := by
  have h1 := (access_guard_behavior [] [] [] 1 1 7 (by decide) (by decide)).1 (by decide)
  have h2 := (access_guard_behavior [⟨4, "n", "", "f.mp4", "p", "t", 1, 9, 7, 1, true⟩]
    [⟨9, "proj", "", 7⟩] [] 4 4 7 (by decide) (by decide)).2.1
    ⟨4, "n", "", "f.mp4", "p", "t", 1, 9, 7, 1, true⟩ ⟨9, "proj", "", 7⟩
    (by decide) (by decide)
  have h3 := (access_guard_behavior [] [⟨9, "proj", "", 3⟩] [] 1 9 7
    (by decide) (by decide)).2.2.2 ⟨9, "proj", "", 3⟩ (by decide)
  refine ⟨h1, ?_, ?_⟩
  · rw [h2]
    decide
  · rw [h3]
    decide

/-- C9: every successful mutation broadcasts exactly one event, on exactly
the relevant room: an upload emits `file_upload` on `project_{pid}` with the
file record and acting-user record; a comment emits `new_comment` on
`file_{fid}` with the comment record and denormalised author; an approval
create or update emits `approval_update` on `file_{fid}` with the approval
record. -/
theorem broadcast_policy :
    (∀ (files : List FileRow) (pid : Nat) (u : User) (fileOpt : Option UploadForm)
      (nameOpt descOpt : Option String) (secure : String → String)
      (token folder : String) (freshId code : Nat) (tbl : List FileRow)
      (v : FileRow) (es : List Emit),
      upload_file files pid u fileOpt nameOpt descOpt secure token folder freshId =
        (tbl, Resp.ok code v, es) →
      es = [⟨"file_upload", "project_" ++ toString pid, Payload.fileP pid v u⟩]) ∧
    (∀ (comments : List CommentRow) (fid : Nat) (u : User)
      (contentOpt : Option String) (tsOpt : Option Int) (freshId code : Nat)
      (tbl : List CommentRow) (v : CommentRow) (es : List Emit),
      create_comment comments fid u contentOpt tsOpt freshId =
        (tbl, Resp.ok code v, es) →
      es = [⟨"new_comment", "file_" ++ toString fid, Payload.commentP v (some u)⟩]) ∧
    (∀ (approvals : List Approval) (fid : Nat) (u : User)
      (statusOpt notesOpt : Option String) (now freshId code : Nat)
      (tbl : List Approval) (v : Approval) (es : List Emit),
      create_approval approvals fid u statusOpt notesOpt now freshId =
        (tbl, Resp.ok code v, es) →
      es = [⟨"approval_update", "file_" ++ toString fid,
        Payload.approvalP v (some u)⟩]) := by
  refine ⟨?_, ?_, ?_⟩
  · intro files pid u fileOpt nameOpt descOpt secure token folder freshId code tbl v es hok
    cases fileOpt with
    | none =>
      unfold upload_file at hok
      simp at hok
    | some f =>
      unfold upload_file at hok
      by_cases hempty : (f.filename == "") = true
      · simp [hempty] at hok
      · have hempty' : (f.filename == "") = false := by
          simpa using hempty
        by_cases hall : allowed_file f.filename = true
        · simp only [hempty', Bool.false_eq_true, if_false, hall, Bool.not_true,
            Prod.mk.injEq] at hok
          obtain ⟨htbl, hresp, hes⟩ := hok
          injection hresp with hcode hval
          subst hval hes
          rfl
        · have hall' : allowed_file f.filename = false := by
            simpa using hall
          simp [hempty', hall'] at hok
  · intro comments fid u contentOpt tsOpt freshId code tbl v es hok
    cases contentOpt with
    | none =>
      unfold create_comment at hok
      simp at hok
    | some c =>
      unfold create_comment at hok
      simp only [Prod.mk.injEq] at hok
      obtain ⟨htbl, hresp, hes⟩ := hok
      injection hresp with hcode hval
      subst hval hes
      rfl
  · intro approvals fid u statusOpt notesOpt now freshId code tbl v es hok
    cases statusOpt with
    | none =>
      unfold create_approval at hok
      simp at hok
    | some st =>
      unfold create_approval at hok
      by_cases hv : validStatus st = true
      · simp only [hv, Bool.not_true, Bool.false_eq_true, if_false] at hok
        cases hfind : approvals.find? (fun b => b.file_id == fid && b.user_id == u.id) with
        | some existing =>
          rw [hfind] at hok
          simp only [Prod.mk.injEq] at hok
          obtain ⟨htbl, hresp, hes⟩ := hok
          injection hresp with hcode hval
          subst hval hes
          rfl
        | none =>
          rw [hfind] at hok
          simp only [Prod.mk.injEq] at hok
          obtain ⟨htbl, hresp, hes⟩ := hok
          injection hresp with hcode hval
          subst hval hes
          rfl
      · have hv' : validStatus st = false := by
          simpa using hv
        simp [hv'] at hok

/-- Witness for C9: one concrete successful run of each mutation, with its
single room-scoped broadcast evaluated. -/
theorem broadcast_policy_witness :
    (upload_file [] 3 demoUser2 (some ⟨"clip.mp4", "video/mp4", 4⟩)
      none none (fun s => s) "tok" "up" 1).2.2 =
      [⟨"file_upload", "project_" ++ toString 3,
        Payload.fileP 3 ⟨1, "clip.mp4", "", "clip.mp4", "up/tok_clip.mp4",
          "video/mp4", 4, 3, 2, 1, true⟩ demoUser2⟩] ∧
    (create_comment [] 7 demoUser2 (some "hi") (some 12) 3).2.2 =
      [⟨"new_comment", "file_" ++ toString 7,
        Payload.commentP ⟨3, "hi", 7, 2, none, 12, false⟩ (some demoUser2)⟩] ∧
    (create_approval [] 4 demoUser2 (some "rejected") none 6 2).2.2 =
      [⟨"approval_update", "file_" ++ toString 4,
        Payload.approvalP ⟨2, 4, 2, "rejected", "", 6, 6⟩ (some demoUser2)⟩] := by
  refine ⟨?_, ?_, ?_⟩
  · exact broadcast_policy.1 [] 3 demoUser2 (some ⟨"clip.mp4", "video/mp4", 4⟩)
      none none (fun s => s) "tok" "up" 1 201
      [⟨1, "clip.mp4", "", "clip.mp4", "up/tok_clip.mp4", "video/mp4", 4, 3, 2, 1, true⟩]
      ⟨1, "clip.mp4", "", "clip.mp4", "up/tok_clip.mp4", "video/mp4", 4, 3, 2, 1, true⟩
      _ rfl
  · exact broadcast_policy.2.1 [] 7 demoUser2 (some "hi") (some 12) 3 201
      [⟨3, "hi", 7, 2, none, 12, false⟩] ⟨3, "hi", 7, 2, none, 12, false⟩ _ rfl
  · exact broadcast_policy.2.2 [] 4 demoUser2 (some "rejected") none 6 2 201
      [⟨2, 4, 2, "rejected", "", 6, 6⟩] ⟨2, 4, 2, "rejected", "", 6, 6⟩ _ rfl

/-- `login` (`app/auth/routes.py:41-58`).  The first statement of the
handler returns the current session user with 200 whenever the caller is
already authenticated, before the request body is read; only otherwise are
the credentials parsed, the user looked up by username and the password
verified against the stored hash (the hash function of the absent User
model is the `hash` parameter; `remember_me` only stretches the cookie
lifetime and is not modelled).  The returned `Option User` is the session
after the request. -/
def login (users : List User) (sessionOpt : Option User)
    (usernameOpt passwordOpt : Option String) (hash : String → String) :
    Option User × Resp User :=
  match sessionOpt with
  | some u => (some u, .ok 200 u)
  | none =>
    match usernameOpt, passwordOpt with
    | some un, some pw =>
      match users.find? (fun v => v.username == un) with
      | none => (none, .err 401 "Invalid username or password")
      | some v =>
        if v.password_hash == hash pw then
          (some v, .ok 200 v)
        else
          (none, .err 401 "Invalid username or password")
    | _, _ => (none, .err 400 "Missing username or password")

/-- C10: a login request from a caller that already holds a session returns
that session's user with 200, and the result is the same for any two
request bodies — the submitted credentials are never examined. -/
theorem login_when_authenticated (users : List User) (u : User)
    (un1 pw1 un2 pw2 : Option String) (hash : String → String) :
    login users (some u) un1 pw1 hash = (some u, Resp.ok 200 u) ∧
    login users (some u) un1 pw1 hash = login users (some u) un2 pw2 hash :=
  ⟨rfl, rfl⟩

end Obview
